import Mathlib

/-!
Verification of the Enrollment / Attendance / Progress engine of the
sms_redesign backend (apps/academics).  The Django models and service
functions are shallowly embedded: database tables become lists of rows,
derived counts become `List.countP`, service calls become functions from a
`DB` state to `Except Err (DB × row)`.  Raised exceptions are the `Err`
values; an error leaves the state unchanged (each service call runs in one
atomic transaction that rolls back on an exception).  Python floats are
modelled by `ℚ`; `round(x, 2)` is modelled by `round2` (the two agree on
every value appearing in a claim; they can differ only on exact ties,
which Python resolves on the binary representation).
Dates and times are modelled as natural numbers (day / minute counts).
-/

namespace SMS

/-- Enrollment.STATUS_* choices (models/enrollment.py). -/
inductive EStatus
  | pending
  | active
  | completed
  | dropped
  | withdrawn
deriving DecidableEq, Repr

/-- The stored string of an enrollment status, used in error messages. -/
def EStatus.str : EStatus → String
  | .pending => "pending"
  | .active => "active"
  | .completed => "completed"
  | .dropped => "dropped"
  | .withdrawn => "withdrawn"

/-- Attendance.STATUS_* choices (models/attendance.py). -/
inductive AStatus
  | present
  | absent
  | late
  | excused
  | on_leave
deriving DecidableEq, Repr

/-- StudentProfile.STATUS_* choices (models/student_profile.py). -/
inductive SStatus
  | active
  | inactive
  | graduated
  | suspended
  | transferred
deriving DecidableEq, Repr

/-- The fields of TeacherProfile that the engine reads
(models/teacher_profile.py: `is_active` is `status == STATUS_ACTIVE`). -/
structure Teacher where
  is_active : Bool
deriving DecidableEq, Repr

/-- A row of the Course prerequisite relation: the id and title of a
prerequisite course (models/course.py `prerequisites`, `title`). -/
structure CourseRef where
  id : Nat
  title : String
deriving DecidableEq, Repr

/-- The fields of Course read by the enrollment / progress engine
(models/course.py).  The teacher foreign key is carried inline. -/
structure Course where
  id : Nat
  title : String
  is_active : Bool
  teacher : Option Teacher
  class_group : Option Nat
  prerequisites : List CourseRef
  max_students : Nat
deriving DecidableEq, Repr

/-- The fields of StudentProfile read by the engine
(models/student_profile.py). -/
structure Student where
  id : Nat
  status : SStatus
  class_group : Option Nat
deriving DecidableEq, Repr

/-- StudentProfile.is_active_student (models/student_profile.py). -/
def Student.is_active_student (s : Student) : Bool :=
  decide (s.status = SStatus.active)

/-- An Enrollment row (models/enrollment.py).  `id` is the primary key;
`student` and `course` are foreign keys, unique together. -/
structure Enrollment where
  id : Nat
  student : Nat
  course : Nat
  status : EStatus
  enrollment_date : Nat
  notes : String
deriving DecidableEq, Repr

/-- The unique-together key of an Enrollment row. -/
def Enrollment.key (e : Enrollment) : Nat × Nat := (e.student, e.course)

/-- An Attendance row (models/attendance.py); (student, course, date) is
unique together. -/
structure Attendance where
  student : Nat
  course : Nat
  date : Nat
  status : AStatus
  arrival_time : Option Nat
  remarks : String
  marked_by : Option Nat
deriving DecidableEq, Repr

/-- The unique-together key of an Attendance row. -/
def Attendance.key (a : Attendance) : Nat × Nat × Nat :=
  (a.student, a.course, a.date)

/-- An Assignment row (models/assignment.py). -/
structure Assignment where
  id : Nat
  course : Nat
deriving DecidableEq, Repr

/-- A Submission row (models/assignment.py).  Note: the source model has
no uniqueness constraint on (assignment, student). -/
structure Submission where
  assignment : Nat
  student : Nat
deriving DecidableEq, Repr

/-- The database state the engine reads and writes.  `next_id` models the
primary-key sequence for new Enrollment rows. -/
structure DB where
  enrollments : List Enrollment
  attendances : List Attendance
  assignments : List Assignment
  submissions : List Submission
  next_id : Nat
deriving DecidableEq, Repr

/-- The exception classes of core/exceptions raised by the engine. -/
inductive Err
  | DuplicateError (msg : String)
  | BusinessLogicError (msg : String)
  | ValidationError (msg : String)
deriving DecidableEq, Repr

/-- Course.enrolled_count (models/course.py): number of Enrollment rows
for the course with status active. -/
def enrolled_count (db : DB) (c : Course) : Nat :=
  db.enrollments.countP
    (fun e => decide (e.course = c.id ∧ e.status = EStatus.active))

/-- Course.is_full (models/course.py): enrolled_count >= max_students. -/
def is_full (db : DB) (c : Course) : Bool :=
  decide (c.max_students ≤ enrolled_count db c)

/-- `self.teacher and self.teacher.is_active` (models/course.py):
the course has a teacher and that teacher is active. -/
def teacherActive (c : Course) : Bool :=
  match c.teacher with
  | some t => t.is_active
  | none => false

/-- Whether the student has a completed Enrollment for the course with the
given id (the per-prerequisite condition of Course.can_student_enroll). -/
def hasCompletedEnrollment (db : DB) (sid cid : Nat) : Bool :=
  db.enrollments.any
    (fun e => decide (e.student = sid ∧ e.course = cid ∧
      e.status = EStatus.completed))

/-- Whether an active Enrollment for (student, course) exists
(the filter used by AttendanceService.mark_attendance and
Attendance.clean). -/
def hasActiveEnrollment (db : DB) (sid cid : Nat) : Bool :=
  db.enrollments.any
    (fun e => decide (e.student = sid ∧ e.course = cid ∧
      e.status = EStatus.active))

/-- Course.can_student_enroll (models/course.py, lines 128-169): the
eligibility cascade, first failure wins, returning (can_enroll, reason). -/
def can_student_enroll (db : DB) (c : Course) (s : Student) :
    Bool × String :=
  if db.enrollments.any (fun e => decide (e.student = s.id ∧
      e.course = c.id ∧ e.status = EStatus.active)) then
    (false, "Already enrolled in this course")
  else if !c.is_active then
    (false, "Course is not active")
  else if !teacherActive c then
    (false, "Course has no active teacher")
  else if is_full db c then
    (false, "Course is at full capacity")
  else
    let unmet := c.prerequisites.filter
      (fun p => !hasCompletedEnrollment db s.id p.id)
    if !unmet.isEmpty then
      (false, "Prerequisites not met: " ++
        String.intercalate ", " (unmet.map (fun p => p.title)))
    else if c.class_group.isSome ∧ s.class_group ≠ c.class_group then
      (false, "Course is not available for your class")
    else
      (true, "Eligible for enrollment")

/-- Enrollment.clean (models/enrollment.py, lines 94-107), run by every
Enrollment save: student must be active, course must be active, and -
only when the row is being inserted (`self._state.adding`) - the course
must not be full.  Returns the ValidationError it raises, if any. -/
def enrollment_clean (db : DB) (s : Student) (c : Course) (adding : Bool) :
    Option Err :=
  if !s.is_active_student then
    some (Err.ValidationError "Student is not active")
  else if !c.is_active then
    some (Err.ValidationError "Course is not active")
  else if adding && is_full db c then
    some (Err.ValidationError "Course is at full capacity")
  else
    none

/-- EnrollmentService.enroll_student (services/enrollment_service.py,
lines 18-75).  Looks up the (student, course) row; an active row raises
DuplicateError, a withdrawn row is reactivated in place (status back to
active, enrollment_date reset to today, saved through Enrollment.clean
with `adding = false`), any other row raises DuplicateError; with no row,
eligibility is evaluated and on success a fresh active row is inserted
(saved through Enrollment.clean with `adding = true`).  `today` is
`timezone.now().date()`. -/
def enroll_student (db : DB) (s : Student) (c : Course) (today : Nat) :
    Except Err (DB × Enrollment) :=
  match db.enrollments.find?
      (fun e => decide (e.student = s.id ∧ e.course = c.id)) with
  | some existing =>
    if existing.status = EStatus.active then
      .error (Err.DuplicateError "Student is already enrolled in this course")
    else if existing.status = EStatus.withdrawn then
      let e' := { existing with
        status := EStatus.active, enrollment_date := today }
      match enrollment_clean db s c false with
      | some err => .error err
      | none =>
        .ok ({ db with enrollments := (db.enrollments.map
          (fun x => if x.id = existing.id then e' else x)) }, e')
    else
      .error (Err.DuplicateError
        ("Cannot enroll - current status: " ++ existing.status.str))
  | none =>
    let res := can_student_enroll db c s
    if !res.1 then
      .error (Err.BusinessLogicError res.2)
    else
      match enrollment_clean db s c true with
      | some err => .error err
      | none =>
        let e : Enrollment :=
          { id := db.next_id, student := s.id, course := c.id,
            status := EStatus.active, enrollment_date := today,
            notes := "" }
        let db' :=
          { db with
            enrollments := db.enrollments ++ [e],
            next_id := db.next_id + 1 }
        .ok (db', e)

/-- Enrollment.withdraw (models/enrollment.py, lines 149-159): sets
status to withdrawn and, when a reason is given, overwrites notes with
"Withdrawn: {reason}". -/
def enrollment_withdraw (e : Enrollment) (reason : String) : Enrollment :=
  { e with
    status := EStatus.withdrawn,
    notes := if reason ≠ "" then "Withdrawn: " ++ reason else e.notes }

/-- EnrollmentService.withdraw_student (services/enrollment_service.py,
lines 115-148): only legal from status active; otherwise
BusinessLogicError.  The save runs Enrollment.clean with
`adding = false`.  `s` and `c` are the rows the enrollment's foreign keys
dereference to. -/
def withdraw_student (db : DB) (s : Student) (c : Course) (e : Enrollment)
    (reason : String) : Except Err (DB × Enrollment) :=
  if e.status ≠ EStatus.active then
    .error (Err.BusinessLogicError
      ("Cannot withdraw - enrollment is " ++ e.status.str))
  else
    let e' := enrollment_withdraw e reason
    match enrollment_clean db s c false with
    | some err => .error err
    | none =>
      .ok ({ db with enrollments := (db.enrollments.map
        (fun x => if x.id = e.id then e' else x)) }, e')

/-- Attendance.clean (models/attendance.py, lines 97-112), run by every
Attendance save: an active Enrollment for (student, course) must exist,
and status late requires an arrival_time. -/
def attendance_clean (db : DB) (a : Attendance) : Option Err :=
  if !hasActiveEnrollment db a.student a.course then
    some (Err.ValidationError "Student is not enrolled in this course")
  else if a.status = AStatus.late ∧ a.arrival_time = none then
    some (Err.ValidationError "Arrival time is required for late status")
  else
    none

/-- AttendanceService.mark_attendance (services/attendance_service.py,
lines 19-66).  Verifies an active enrollment exists (else
BusinessLogicError), then upserts the row keyed on
(student, course, date) via update_or_create, overwriting status,
marked_by, remarks and arrival_time; the save runs Attendance.clean. -/
def mark_attendance (db : DB) (s : Student) (c : Course) (d : Nat)
    (st : AStatus) (mb : Option Nat) (rem : String) (at_ : Option Nat) :
    Except Err (DB × Attendance) :=
  if !hasActiveEnrollment db s.id c.id then
    .error (Err.BusinessLogicError "Student is not enrolled in this course")
  else
    match db.attendances.find? (fun a => decide (a.student = s.id ∧
        a.course = c.id ∧ a.date = d)) with
    | some old =>
      let a :=
        { old with
          status := st, marked_by := mb, remarks := rem,
          arrival_time := at_ }
      match attendance_clean db a with
      | some err => .error err
      | none =>
        let db' :=
          { db with
            attendances := db.attendances.map
              (fun x => if x.student = s.id ∧ x.course = c.id ∧ x.date = d
                then a else x) }
        .ok (db', a)
    | none =>
      let a : Attendance :=
        { student := s.id, course := c.id, date := d, status := st,
          arrival_time := at_, remarks := rem, marked_by := mb }
      match attendance_clean db a with
      | some err => .error err
      | none =>
        .ok ({ db with attendances := db.attendances ++ [a] }, a)

/-- Python's `round(x, 2)`: round to two decimal places.  (Python breaks
exact ties half-to-even on the binary float; no value appearing in a
claim is a tie, so the tie-breaking direction is immaterial here.) -/
def round2 (q : ℚ) : ℚ := ((⌊q * 100 + 1/2⌋ : ℤ) : ℚ) / 100

/-- Count of rows with the given attendance status
(`queryset.filter(status=...).count()`). -/
def countStatus (l : List Attendance) (st : AStatus) : Nat :=
  l.countP (fun a => decide (a.status = st))

/-- The queryset `Attendance.objects.filter(student=student)` with the
optional course filter applied, as used by
AttendanceService.get_student_attendance_summary and
AttendanceService._calculate_consecutive_absences. -/
def attendanceRowsFor (db : DB) (sid : Nat) (co : Option Nat) :
    List Attendance :=
  let q := db.attendances.filter (fun a => decide (a.student = sid))
  match co with
  | some cid => q.filter (fun a => decide (a.course = cid))
  | none => q

/-- The status counts and percentage returned by the attendance
summaries. -/
structure AttSummary where
  total : Nat
  present : Nat
  absent : Nat
  late : Nat
  excused : Nat
  percentage : ℚ
deriving DecidableEq, Repr

/-- The `percentage` local of
AttendanceService.get_student_attendance_summary
(services/attendance_service.py, line 226), before rounding:
(present + late + excused) / total * 100, or 0 when there are no rows. -/
def service_summary_raw (db : DB) (sid : Nat) (co : Option Nat) : ℚ :=
  let q := attendanceRowsFor db sid co
  if 0 < q.length then
    ((countStatus q AStatus.present + countStatus q AStatus.late +
      countStatus q AStatus.excused : Nat) : ℚ) / (q.length : ℚ) * 100
  else 0

/-- The `overall` block of
AttendanceService.get_student_attendance_summary
(services/attendance_service.py, lines 199-246). -/
def get_student_attendance_summary (db : DB) (sid : Nat)
    (co : Option Nat) : AttSummary :=
  let q := attendanceRowsFor db sid co
  { total := q.length,
    present := countStatus q AStatus.present,
    absent := countStatus q AStatus.absent,
    late := countStatus q AStatus.late,
    excused := countStatus q AStatus.excused,
    percentage := round2 (service_summary_raw db sid co) }

/-- The queryset of Attendance.get_summary (models/attendance.py,
lines 129-153): all rows, with optional student, course and date-range
filters applied in turn. -/
def summaryRows (db : DB) (student : Option Nat) (course : Option Nat)
    (start_date : Option Nat) (end_date : Option Nat) : List Attendance :=
  let q := db.attendances
  let q := match student with
    | some sid => q.filter (fun a => decide (a.student = sid))
    | none => q
  let q := match course with
    | some cid => q.filter (fun a => decide (a.course = cid))
    | none => q
  let q := match start_date with
    | some sd => q.filter (fun a => decide (sd ≤ a.date))
    | none => q
  match end_date with
  | some ed => q.filter (fun a => decide (a.date ≤ ed))
  | none => q

/-- Attendance.get_summary (models/attendance.py, lines 129-170):
counts by status and percentage = effective_present / total * 100
(0 when total = 0), rounded to 2 decimals. -/
def get_summary (db : DB) (student : Option Nat) (course : Option Nat)
    (start_date : Option Nat) (end_date : Option Nat) : AttSummary :=
  let q := summaryRows db student course start_date end_date
  let total := q.length
  let present := countStatus q AStatus.present
  let late := countStatus q AStatus.late
  let excused := countStatus q AStatus.excused
  let effective_present := present + late + excused
  let percentage : ℚ :=
    if 0 < total then ((effective_present : Nat) : ℚ) / (total : ℚ) * 100
    else 0
  { total := total,
    present := present,
    absent := countStatus q AStatus.absent,
    late := late,
    excused := excused,
    percentage := round2 percentage }

/-- The queryset of StudentProfile.get_attendance_summary
(models/student_profile.py, lines 189-210): the student's rows with
optional course and date-range filters. -/
def profileRows (db : DB) (sid : Nat) (course : Option Nat)
    (start_date : Option Nat) (end_date : Option Nat) : List Attendance :=
  summaryRows db (some sid) course start_date end_date

/-- The `percentage` local of StudentProfile.get_attendance_summary
(models/student_profile.py, line 218), before rounding: it divides the
count of rows whose status is exactly present - late and excused rows
count only in the denominator. -/
def profile_summary_raw (db : DB) (sid : Nat) (course : Option Nat)
    (start_date : Option Nat) (end_date : Option Nat) : ℚ :=
  let q := profileRows db sid course start_date end_date
  if 0 < q.length then
    ((countStatus q AStatus.present : Nat) : ℚ) / (q.length : ℚ) * 100
  else 0

/-- StudentProfile.get_attendance_summary (models/student_profile.py,
lines 189-227). -/
def profile_attendance_summary (db : DB) (sid : Nat)
    (course : Option Nat) (start_date : Option Nat)
    (end_date : Option Nat) : AttSummary :=
  let q := profileRows db sid course start_date end_date
  { total := q.length,
    present := countStatus q AStatus.present,
    absent := countStatus q AStatus.absent,
    late := countStatus q AStatus.late,
    excused := countStatus q AStatus.excused,
    percentage := round2 (profile_summary_raw db sid course start_date
      end_date) }

/-- `queryset.order_by('-date')`: the rows sorted by date descending.
(The database leaves the relative order of equal dates unspecified; any
date-descending permutation models it, and insertion sort is one.) -/
def sortDesc (l : List Attendance) : List Attendance :=
  l.insertionSort (fun a b => b.date ≤ a.date)

/-- The counting loop of
AttendanceService._calculate_consecutive_absences: walk the records in
order, adding 1 per absent record, stopping at the first non-absent
one. -/
def countConsecLoop : List Attendance → Nat
  | [] => 0
  | r :: rs =>
    if r.status = AStatus.absent then countConsecLoop rs + 1 else 0

/-- AttendanceService._calculate_consecutive_absences
(services/attendance_service.py, lines 256-277): order the student's
(optionally course-filtered) rows by date descending, keep the first 30,
and count the leading run of absent records. -/
def _calculate_consecutive_absences (db : DB) (sid : Nat)
    (co : Option Nat) : Nat :=
  let records := (sortDesc (attendanceRowsFor db sid co)).take 30
  countConsecLoop records

/-- Course.get_student_progress (models/course.py, lines 171-210).
Note `submitted` counts Submission rows matching the course's
assignments and the student - not distinct assignments. -/
def get_student_progress (db : DB) (c : Course) (s : Student) : ℚ :=
  let assignments := db.assignments.filter (fun a => decide (a.course = c.id))
  let total_assignments := assignments.length
  if total_assignments = 0 then 0
  else
    let submitted := (db.submissions.filter (fun sub =>
      decide (sub.assignment ∈ assignments.map (fun a => a.id) ∧
        sub.student = s.id))).length
    let attendance_records := db.attendances.filter (fun a =>
      decide (a.course = c.id ∧ a.student = s.id))
    let total_classes := attendance_records.length
    let present_classes := countStatus attendance_records AStatus.present
    let attendance_rate : ℚ :=
      if 0 < total_classes then
        (present_classes : ℚ) / (total_classes : ℚ) * 100
      else 0
    let assignment_progress : ℚ :=
      if 0 < total_assignments then
        (submitted : ℚ) / (total_assignments : ℚ) * 100
      else 0
    round2 (assignment_progress * 0.6 + attendance_rate * 0.4)

/-- Modelled from the spec: the progress formula as the claim states it,
with assignment_progress counting the number of DISTINCT Assignments of
the course for which the student has a Submission. -/
def claim_student_progress (db : DB) (c : Course) (s : Student) : ℚ :=
  let assignments := db.assignments.filter (fun a => decide (a.course = c.id))
  let total_assignments := assignments.length
  if total_assignments = 0 then 0
  else
    let submittedDistinct := (assignments.filter (fun a =>
      db.submissions.any (fun sub =>
        decide (sub.assignment = a.id ∧ sub.student = s.id)))).length
    let attendance_records := db.attendances.filter (fun a =>
      decide (a.course = c.id ∧ a.student = s.id))
    let total_classes := attendance_records.length
    let present_classes := countStatus attendance_records AStatus.present
    let attendance_rate : ℚ :=
      if 0 < total_classes then
        (present_classes : ℚ) / (total_classes : ℚ) * 100
      else 0
    let assignment_progress : ℚ :=
      (submittedDistinct : ℚ) / (total_assignments : ℚ) * 100
    round2 (assignment_progress * 0.6 + attendance_rate * 0.4)

/-- The primary-key and unique-together constraints of the Enrollment
table: distinct rows have distinct ids and distinct (student, course)
keys (models/enrollment.py Meta.unique_together). -/
def EnrollOk (l : List Enrollment) : Prop :=
  l.Pairwise (fun a b => a.id ≠ b.id ∧ a.key ≠ b.key)

/-- The unique-together constraint of the Attendance table: distinct rows
have distinct (student, course, date) keys (models/attendance.py
Meta.unique_together). -/
def AttOk (l : List Attendance) : Prop :=
  l.Pairwise (fun a b => a.key ≠ b.key)

/-- Modelled from the claim: the first unmet eligibility condition for a
student with no prior row, in the order the claim lists - course active,
active teacher, available capacity, prerequisites all completed, owning
class group match - paired with the engine's reason string for it. -/
def specFirstUnmet (db : DB) (c : Course) (s : Student) : Option String :=
  if c.is_active = false then some "Course is not active"
  else if teacherActive c = false then some "Course has no active teacher"
  else if c.max_students ≤ enrolled_count db c then
    some "Course is at full capacity"
  else if ¬ (∀ p ∈ c.prerequisites,
      hasCompletedEnrollment db s.id p.id = true) then
    some ("Prerequisites not met: " ++ String.intercalate ", "
      ((c.prerequisites.filter
        (fun p => !hasCompletedEnrollment db s.id p.id)).map
        (fun p => p.title)))
  else if c.class_group.isSome ∧ s.class_group ≠ c.class_group then
    some "Course is not available for your class"
  else none

/-- The claim's effective-present count in one pass: rows whose status is
present, late or excused. -/
def effectivePresent (l : List Attendance) : Nat :=
  l.countP (fun a => decide (a.status = AStatus.present ∨
    a.status = AStatus.late ∨ a.status = AStatus.excused))

/-- Whether `small` is a leading piece of `big`, character by character
(used to state that old notes are not preserved by withdrawal). -/
def strStartsWith (big small : String) : Bool :=
  small.toList.isPrefixOf big.toList

/-- A teacher currently active. -/
def tActive : Teacher := { is_active := true }

/-- A one-seat active course with an active teacher and no
prerequisites. -/
def cFull : Course :=
  { id := 1, title := "Algebra", is_active := true,
    teacher := some tActive, class_group := none, prerequisites := [],
    max_students := 1 }

/-- An active student. -/
def sAmy : Student := { id := 7, status := SStatus.active, class_group := none }

/-- A second active student. -/
def sCal : Student := { id := 9, status := SStatus.active, class_group := none }

/-- sAmy's active enrollment in cFull. -/
def eAmy : Enrollment :=
  { id := 1, student := 7, course := 1, status := EStatus.active,
    enrollment_date := 0, notes := "" }

/-- A second active enrollment in cFull, keeping the course full. -/
def eBen : Enrollment :=
  { id := 2, student := 8, course := 1, status := EStatus.active,
    enrollment_date := 0, notes := "" }

/-- sCal's completed enrollment in cFull. -/
def eCalDone : Enrollment :=
  { id := 4, student := 9, course := 1, status := EStatus.completed,
    enrollment_date := 0, notes := "" }

/-- State for the C2 witness: cFull is at capacity (two active rows for
one seat). -/
def dbC2 : DB :=
  { enrollments := [eAmy, eBen], attendances := [], assignments := [],
    submissions := [], next_id := 3 }

/-- State for the C3 witness: sCal has a completed row for cFull. -/
def dbC3 : DB :=
  { enrollments := [eCalDone], attendances := [], assignments := [],
    submissions := [], next_id := 5 }

/-- State for the C1 witness: cFull's single seat is taken by eBen, and
sCal has no row at all. -/
def dbC1 : DB :=
  { enrollments := [eBen], attendances := [], assignments := [],
    submissions := [], next_id := 6 }

/-- An attendance row for student 7 in course 1 on day `d`. -/
def arow (d : Nat) (st : AStatus) : Attendance :=
  { student := 7, course := 1, date := d, status := st,
    arrival_time := none, remarks := "", marked_by := none }

/-- Attendance state for the C6 witness: 10 rows for (7, 1) - 6 present,
2 late, 1 excused, 1 absent. -/
def dbC6 : DB :=
  { enrollments := [],
    attendances :=
      [arow 1 .present, arow 2 .present, arow 3 .present, arow 4 .present,
       arow 5 .present, arow 6 .present, arow 7 .late, arow 8 .late,
       arow 9 .excused, arow 10 .absent],
    assignments := [], submissions := [], next_id := 0 }

/-- Attendance state for the C8 example: most-recent-first statuses are
[absent, absent, absent, present, absent]. -/
def dbC8 : DB :=
  { enrollments := [],
    attendances :=
      [arow 1 .absent, arow 2 .present, arow 3 .absent, arow 4 .absent,
       arow 5 .absent],
    assignments := [], submissions := [], next_id := 0 }

/-- State for the C5 failing input: one assignment in course 1, and two
Submission rows by student 7 for that same assignment (the Submission
table has no uniqueness constraint forbidding this). -/
def dbDup : DB :=
  { enrollments := [], attendances := [],
    assignments := [{ id := 1, course := 1 }],
    submissions := [{ assignment := 1, student := 7 },
      { assignment := 1, student := 7 }],
    next_id := 0 }

/-- sAmy's active enrollment carrying pre-existing notes, for the C9
counterexample. -/
def eNotes : Enrollment :=
  { id := 1, student := 7, course := 1, status := EStatus.active,
    enrollment_date := 0, notes := "scholarship---keep on record" }

/-- State for the C9 counterexample and witness. -/
def dbC9 : DB :=
  { enrollments := [eNotes], attendances := [], assignments := [],
    submissions := [], next_id := 2 }

/-- State for the C4 and C7 witnesses: sAmy actively enrolled in cFull,
no attendance rows yet. -/
def dbC4 : DB :=
  { enrollments := [eAmy], attendances := [], assignments := [],
    submissions := [], next_id := 2 }

/-- The row created by the first mark of the C7 witness. -/
def aMark1 : Attendance := arow 3 AStatus.present

/-- State after the first mark of the C7 witness. -/
def dbM1 : DB := { dbC4 with attendances := [aMark1] }

/-- The row after the second mark of the C7 witness: same key, second
call's values. -/
def aMark2 : Attendance :=
  { student := 7, course := 1, date := 3, status := AStatus.absent,
    arrival_time := none, remarks := "sick", marked_by := none }

/-- State after the second mark of the C7 witness. -/
def dbM2 : DB := { dbC4 with attendances := [aMark2] }

theorem enroll_key_eq_iff (e : Enrollment) (sid cid : Nat) :
    e.key = (sid, cid) ↔ e.student = sid ∧ e.course = cid := by
  simp [Enrollment.key, Prod.ext_iff]

/-- Under the uniqueness constraint, looking up the (student, course) key
finds exactly the row known to carry it. -/
theorem find?_enroll_key (l : List Enrollment) (sid cid : Nat)
    (hwf : EnrollOk l) (e : Enrollment) (he : e ∈ l)
    (hk : e.key = (sid, cid)) :
    l.find? (fun x => decide (x.student = sid ∧ x.course = cid)) =
      some e := by
  induction l with
  | nil => cases he
  | cons a t ih =>
    rcases List.pairwise_cons.mp hwf with ⟨ha, ht⟩
    rcases List.mem_cons.mp he with h | he
    · subst h
      exact List.find?_cons_of_pos _
        (by simpa [decide_eq_true_eq] using (enroll_key_eq_iff e sid cid).mp hk)
    · have hne : a.key ≠ (sid, cid) := by
        intro hak
        exact (ha e he).2 (hak.trans hk.symm)
      rw [List.find?_cons_of_neg]
      · exact ih ht he
      · simpa [decide_eq_true_eq, ← enroll_key_eq_iff] using hne

/-- Saving a modified row (same id, same key) and looking the key up
again finds the modified row. -/
theorem find?_enroll_key_replace (l : List Enrollment) (sid cid : Nat)
    (hwf : EnrollOk l) (e e' : Enrollment) (he : e ∈ l)
    (hk : e.key = (sid, cid)) (hk' : e'.key = (sid, cid)) :
    (l.map (fun x => if x.id = e.id then e' else x)).find?
      (fun x => decide (x.student = sid ∧ x.course = cid)) =
      some e' := by
  induction l with
  | nil => cases he
  | cons a t ih =>
    rcases List.pairwise_cons.mp hwf with ⟨ha, ht⟩
    rcases List.mem_cons.mp he with h | he
    · subst h
      simp only [List.map_cons, if_pos rfl]
      exact List.find?_cons_of_pos _
        (by simpa [decide_eq_true_eq] using (enroll_key_eq_iff e' sid cid).mp hk')
    · have hid : a.id ≠ e.id := (ha e he).1
      have hne : a.key ≠ (sid, cid) := by
        intro hak
        exact (ha e he).2 (hak.trans hk.symm)
      simp only [List.map_cons, if_neg hid]
      rw [List.find?_cons_of_neg]
      · exact ih ht he
      · simpa [decide_eq_true_eq, ← enroll_key_eq_iff] using hne

/-- Evaluation of withdraw_student on an active enrollment whose student
and course pass Enrollment.clean: the row is saved with status withdrawn
and the notes rewritten by Enrollment.withdraw. -/
theorem withdraw_ok (db : DB) (s : Student) (c : Course) (e : Enrollment)
    (reason : String) (hst : e.status = EStatus.active)
    (hs : s.is_active_student = true) (hc : c.is_active = true) :
    withdraw_student db s c e reason = .ok
      ({ db with
         enrollments := db.enrollments.map
          (fun x => if x.id = e.id then enrollment_withdraw e reason
            else x) },
       enrollment_withdraw e reason) := by
  simp [withdraw_student, hst, enrollment_clean, hs, hc]

/-- Evaluation of enroll_student when the (student, course) lookup finds
a withdrawn row: the row is reactivated in place - status back to
active, enrollment_date reset - with no eligibility or capacity
check. -/
theorem enroll_reactivates (db : DB) (s : Student) (c : Course)
    (today : Nat) (e1 : Enrollment)
    (hfind : db.enrollments.find? (fun x => decide (x.student = s.id ∧
      x.course = c.id)) = some e1)
    (hstw : e1.status = EStatus.withdrawn)
    (hs : s.is_active_student = true) (hc : c.is_active = true) :
    enroll_student db s c today = .ok
      ({ db with
         enrollments := db.enrollments.map
          (fun x => if x.id = e1.id then
            { e1 with status := EStatus.active, enrollment_date := today }
            else x) },
       { e1 with status := EStatus.active, enrollment_date := today }) := by
  simp only [enroll_student]
  rw [hfind]
  simp [hstw, enrollment_clean, hs, hc]

/-- Claim C2: For an active Enrollment `e` of student S in course C (S an
active student and C an active course, which Enrollment.clean demands of
every save), `withdraw` followed by `enroll` succeeds and reactivates the
very same row: same primary key, status back to active, enrollment_date
reset to today, and no new row is created.  No capacity hypothesis is
needed: Enrollment.clean checks capacity only when a row is being added,
so the withdrawn-to-active path never re-checks it, and the statement
holds even for a course at (or over) full capacity - the witness
instantiates it with a full course. -/
theorem c2_withdraw_then_reenroll (db : DB) (s : Student) (c : Course)
    (e : Enrollment) (today : Nat) (reason : String)
    (hwf : EnrollOk db.enrollments) (he : e ∈ db.enrollments)
    (hk : e.key = (s.id, c.id)) (hst : e.status = EStatus.active)
    (hs : s.is_active_student = true) (hc : c.is_active = true) :
    ∃ db1 e1 db2 e2,
      withdraw_student db s c e reason = .ok (db1, e1) ∧
      enroll_student db1 s c today = .ok (db2, e2) ∧
      e2.id = e.id ∧ e2.status = EStatus.active ∧
      e2.enrollment_date = today ∧
      db2.enrollments.length = db.enrollments.length := by
  have hk1 : (enrollment_withdraw e reason).key = (s.id, c.id) := by
    simpa [enrollment_withdraw, Enrollment.key] using hk
  have hfind : (db.enrollments.map (fun x =>
      if x.id = e.id then enrollment_withdraw e reason else x)).find?
      (fun x => decide (x.student = s.id ∧ x.course = c.id)) =
      some (enrollment_withdraw e reason) :=
    find?_enroll_key_replace db.enrollments s.id c.id hwf e
      (enrollment_withdraw e reason) he hk hk1
  refine ⟨_, _, _, _, withdraw_ok db s c e reason hst hs hc,
    enroll_reactivates _ s c today (enrollment_withdraw e reason) hfind
      rfl hs hc, rfl, rfl, rfl, by simp⟩

/-- Claim C3: If a row for (student, course) already exists with any status
other than withdrawn, enroll_student raises DuplicateError (so no new row
is created and no state is written - the transaction aborts at the
raise); an active row yields the "already enrolled" message. -/
theorem c3_enroll_duplicate (db : DB) (s : Student) (c : Course)
    (today : Nat) (e : Enrollment)
    (hwf : EnrollOk db.enrollments) (he : e ∈ db.enrollments)
    (hk : e.key = (s.id, c.id)) (hst : e.status ≠ EStatus.withdrawn) :
    ∃ msg, enroll_student db s c today =
        .error (Err.DuplicateError msg) ∧
      (e.status = EStatus.active →
        msg = "Student is already enrolled in this course") := by
  have hfind := find?_enroll_key db.enrollments s.id c.id hwf e he hk
  cases hA : e.status with
  | active =>
    exact ⟨_, by simp only [enroll_student]; rw [hfind]; simp [hA],
      fun _ => rfl⟩
  | withdrawn => exact absurd hA hst
  | pending =>
    refine ⟨"Cannot enroll - current status: pending", ?_, by simp [hA]⟩
    simp only [enroll_student]; rw [hfind]; simp [hA, EStatus.str]
  | completed =>
    refine ⟨"Cannot enroll - current status: completed", ?_, by simp [hA]⟩
    simp only [enroll_student]; rw [hfind]; simp [hA, EStatus.str]
  | dropped =>
    refine ⟨"Cannot enroll - current status: dropped", ?_, by simp [hA]⟩
    simp only [enroll_student]; rw [hfind]; simp [hA, EStatus.str]

/-- Witness for C2: with course cFull at capacity (is_full), withdrawing
eAmy and re-enrolling reuses row id 1 and succeeds despite the full
course. -/
theorem c2_witness :
    is_full dbC2 cFull = true ∧
    (∃ db1 e1 db2 e2,
      withdraw_student dbC2 sAmy cFull eAmy "moving away" = .ok (db1, e1) ∧
      enroll_student db1 sAmy cFull 5 = .ok (db2, e2) ∧
      e2.id = eAmy.id ∧ e2.status = EStatus.active ∧
      e2.enrollment_date = 5 ∧
      db2.enrollments.length = dbC2.enrollments.length) :=
  ⟨by decide,
   c2_withdraw_then_reenroll dbC2 sAmy cFull eAmy 5 "moving away"
     (by unfold EnrollOk; decide) (by decide) (by decide) (by decide)
     (by decide) (by decide)⟩

/-- Witness for C3: enrolling sCal, who has a completed row, raises
DuplicateError. -/
theorem c3_witness :
    ∃ msg, enroll_student dbC3 sCal cFull 0 =
        .error (Err.DuplicateError msg) ∧
      (eCalDone.status = EStatus.active →
        msg = "Student is already enrolled in this course") :=
  c3_enroll_duplicate dbC3 sCal cFull 0 eCalDone
    (by unfold EnrollOk; decide) (by decide) (by decide) (by decide)

theorem unmet_empty_iff (db : DB) (c : Course) (s : Student) :
    (c.prerequisites.filter
      (fun p => !hasCompletedEnrollment db s.id p.id)).isEmpty = true ↔
    ∀ p ∈ c.prerequisites, hasCompletedEnrollment db s.id p.id = true := by
  simp [List.isEmpty_iff, List.filter_eq_nil_iff]

theorem enrollment_clean_validation (db : DB) (s : Student) (c : Course)
    (adding : Bool) :
    enrollment_clean db s c adding = none ∨
    ∃ m, enrollment_clean db s c adding = some (Err.ValidationError m) := by
  unfold enrollment_clean
  split_ifs <;> simp

/-- With no prior row for (student, course), Course.can_student_enroll
evaluates exactly the claim's condition list in the claim's order:
it denies with the reason of the first unmet condition and allows iff
none is unmet. -/
theorem can_student_enroll_spec (db : DB) (c : Course) (s : Student)
    (hnone : ∀ x ∈ db.enrollments, ¬(x.student = s.id ∧ x.course = c.id)) :
    specFirstUnmet db c s =
      (if (can_student_enroll db c s).1 = true then none
       else some (can_student_enroll db c s).2) := by
  have hany : (db.enrollments.any (fun e => decide (e.student = s.id ∧
      e.course = c.id ∧ e.status = EStatus.active))) = false := by
    simp only [List.any_eq_false, decide_eq_true_eq]
    intro e hemem h
    exact hnone e hemem ⟨h.1, h.2.1⟩
  unfold can_student_enroll specFirstUnmet
  rw [hany]
  by_cases h1 : c.is_active = false
  · simp [h1]
  · have h1' : c.is_active = true := by
      revert h1; cases c.is_active <;> simp
    by_cases h2 : teacherActive c = false
    · simp [h1', h2]
    · have h2' : teacherActive c = true := by
        revert h2; cases teacherActive c <;> simp
      by_cases h3 : c.max_students ≤ enrolled_count db c
      · simp [h1', h2', h3, is_full]
      · by_cases h4 : ∀ p ∈ c.prerequisites,
            hasCompletedEnrollment db s.id p.id = true
        · have hemp : (c.prerequisites.filter
              (fun p => !hasCompletedEnrollment db s.id p.id)).isEmpty =
              true := (unmet_empty_iff db c s).mpr h4
          rw [if_neg (not_not_intro h4)]
          by_cases h5 : c.class_group.isSome ∧ s.class_group ≠ c.class_group
          · simp [h1', h2', h3, is_full, hemp, h5]
          · simp [h1', h2', h3, is_full, hemp, h5]
        · have hemp : (c.prerequisites.filter
              (fun p => !hasCompletedEnrollment db s.id p.id)).isEmpty =
              false :=
            Bool.eq_false_iff.mpr
              (fun hb => h4 ((unmet_empty_iff db c s).mp hb))
          rw [if_pos h4]
          simp [h1', h2', h3, is_full, hemp]

/-- Claim C1: For a student with no prior Enrollment row for the course,
enroll_student fails with BusinessLogicError r exactly when r is the
reason string of the first unmet condition of the claim's ordered list
(course active; active teacher; enrolled_count < max_students;
prerequisites completed; owning class group match); in particular a full
course yields "Course is at full capacity" (the witness).  When every
condition holds the call never raises BusinessLogicError. -/
theorem c1_enroll_first_unmet (db : DB) (s : Student) (c : Course)
    (today : Nat)
    (hnone : ∀ x ∈ db.enrollments, ¬(x.student = s.id ∧ x.course = c.id)) :
    ∀ r, enroll_student db s c today =
        .error (Err.BusinessLogicError r) ↔
      specFirstUnmet db c s = some r := by
  intro r
  have hfind : db.enrollments.find? (fun x => decide (x.student = s.id ∧
      x.course = c.id)) = none := by
    simp only [List.find?_eq_none, decide_eq_true_eq]
    exact hnone
  have hspec := can_student_enroll_spec db c s hnone
  by_cases hcan : (can_student_enroll db c s).1 = true
  · rw [hspec, if_pos hcan]
    constructor
    · intro h
      exfalso
      simp only [enroll_student] at h
      rw [hfind] at h
      simp only [hcan] at h
      rcases enrollment_clean_validation db s c true with hcl | ⟨m, hcl⟩ <;>
        rw [hcl] at h <;> simp at h
    · intro h
      exact absurd h (by simp)
  · have hfalse : (can_student_enroll db c s).1 = false := by
      revert hcan; cases (can_student_enroll db c s).1 <;> simp
    rw [hspec, if_neg (by simp [hfalse])]
    have hres : enroll_student db s c today =
        .error (Err.BusinessLogicError (can_student_enroll db c s).2) := by
      simp only [enroll_student]
      rw [hfind]
      simp [hfalse]
    rw [hres]
    constructor
    · intro h
      injection h with h
      injection h with h
      rw [h]
    · intro h
      injection h with h
      rw [h]

/-- Witness for C1: course cFull is full (its one seat held by eBen), so
enrolling sCal - who has no row - fails citing capacity, matching
specFirstUnmet. -/
theorem c1_witness :
    enroll_student dbC1 sCal cFull 0 =
      .error (Err.BusinessLogicError "Course is at full capacity") :=
  (c1_enroll_first_unmet dbC1 sCal cFull 0 (by decide)
    "Course is at full capacity").mpr (by decide)

/-- Claim C9 (amended): withdraw_student fails with BusinessLogicError
naming the current status whenever the enrollment is not active (the
raise aborts the transaction, leaving the row unchanged); from an active
enrollment (whose student and course pass Enrollment.clean, which runs on
every save) it succeeds, setting status to withdrawn and - when the
reason is nonempty - REPLACING notes with "Withdrawn: {reason}",
discarding any content already present; an empty reason leaves notes
unchanged. -/
theorem c9_withdraw_spec (db : DB) (s : Student) (c : Course)
    (e : Enrollment) (reason : String)
    (hs : s.is_active_student = true) (hc : c.is_active = true) :
    (e.status ≠ EStatus.active →
      withdraw_student db s c e reason =
        .error (Err.BusinessLogicError
          ("Cannot withdraw - enrollment is " ++ e.status.str))) ∧
    (e.status = EStatus.active →
      ∃ db', withdraw_student db s c e reason = .ok (db',
        { e with
          status := EStatus.withdrawn,
          notes := if reason = "" then e.notes
                   else "Withdrawn: " ++ reason })) := by
  constructor
  · intro h
    simp [withdraw_student, h]
  · intro h
    have hnotes : enrollment_withdraw e reason =
        { e with
          status := EStatus.withdrawn,
          notes := if reason = "" then e.notes
                   else "Withdrawn: " ++ reason } := by
      by_cases hr : reason = "" <;> simp [enrollment_withdraw, hr]
    exact ⟨_, by rw [withdraw_ok db s c e reason h hs hc, hnotes]⟩

/-- Counterexample for C9 as stated: withdrawing the active enrollment
eNotes, whose notes field already holds "scholarship---keep on record",
with reason "moving" rewrites notes to exactly "Withdrawn: moving"; the
prior content is not preserved (the old notes are not even a leading
piece of the new ones), refuting "appends ... preserving any content
already present in notes". -/
theorem c9_counterexample :
    withdraw_student dbC9 sAmy cFull eNotes "moving" =
      .ok ({ dbC9 with enrollments :=
          [{ eNotes with
             status := EStatus.withdrawn,
             notes := "Withdrawn: moving" }] },
        { eNotes with
          status := EStatus.withdrawn,
          notes := "Withdrawn: moving" }) ∧
    eNotes.notes = "scholarship---keep on record" ∧
    strStartsWith "Withdrawn: moving" eNotes.notes = false :=
  ⟨rfl, rfl, rfl⟩

/-- Witness for the amended C9: withdrawing eNotes succeeds with status
withdrawn and notes replaced. -/
theorem c9_witness :
    ∃ db', withdraw_student dbC9 sAmy cFull eNotes "moving" = .ok (db',
      { eNotes with
        status := EStatus.withdrawn,
        notes := if ("moving" : String) = "" then eNotes.notes
                 else "Withdrawn: " ++ "moving" }) :=
  (c9_withdraw_spec dbC9 sAmy cFull eNotes "moving" (by decide)
    (by decide)).2 rfl

/-- Claim C4: mark_attendance fails with BusinessLogicError when no active
enrollment for (student, course) exists; with an active enrollment,
status late without an arrival_time fails validation
(Attendance.clean), and any other combination succeeds. -/
theorem c4_mark_preconditions (db : DB) (s : Student) (c : Course)
    (d : Nat) (st : AStatus) (mb : Option Nat) (rem : String)
    (at_ : Option Nat) :
    (hasActiveEnrollment db s.id c.id = false →
      mark_attendance db s c d st mb rem at_ =
        .error (Err.BusinessLogicError
          "Student is not enrolled in this course")) ∧
    (hasActiveEnrollment db s.id c.id = true → st = AStatus.late →
      at_ = none →
      mark_attendance db s c d st mb rem at_ =
        .error (Err.ValidationError
          "Arrival time is required for late status")) ∧
    (hasActiveEnrollment db s.id c.id = true →
      (st ≠ AStatus.late ∨ at_ ≠ none) →
      ∃ db' a, mark_attendance db s c d st mb rem at_ = .ok (db', a)) := by
  refine ⟨fun h => by simp [mark_attendance, h], ?_, ?_⟩
  · intro h hlate hat
    unfold mark_attendance
    rw [h, if_neg (by simp)]
    rcases hf : db.attendances.find? (fun a => decide (a.student = s.id ∧
        a.course = c.id ∧ a.date = d)) with _ | old
    · rw [hf]
      simp [attendance_clean, h, hlate, hat]
    · rw [hf]
      obtain ⟨h1, h2, h3⟩ : old.student = s.id ∧ old.course = c.id ∧
          old.date = d := by simpa using List.find?_some hf
      simp [attendance_clean, h1, h2, h, hlate, hat]
  · intro h hok
    unfold mark_attendance
    rw [h, if_neg (by simp)]
    have hcl : ¬(st = AStatus.late ∧ at_ = none) := by
      rcases hok with hok | hok <;> intro hcontra <;>
        exact hok (by simp [hcontra.1, hcontra.2])
    rcases hf : db.attendances.find? (fun a => decide (a.student = s.id ∧
        a.course = c.id ∧ a.date = d)) with _ | old
    · rw [hf]
      simp only [attendance_clean, h]
      simp [hcl]
    · rw [hf]
      obtain ⟨h1, h2, h3⟩ : old.student = s.id ∧ old.course = c.id ∧
          old.date = d := by simpa using List.find?_some hf
      simp only [attendance_clean, h1, h2, h]
      simp [hcl]

/-- Witness for C4: with sAmy actively enrolled, a late mark without
arrival time fails validation, and a present mark succeeds. -/
theorem c4_witness :
    mark_attendance dbC4 sAmy cFull 3 AStatus.late none "" none =
      .error (Err.ValidationError
        "Arrival time is required for late status") ∧
    (∃ db' a, mark_attendance dbC4 sAmy cFull 3 AStatus.present none ""
      none = .ok (db', a)) :=
  ⟨(c4_mark_preconditions dbC4 sAmy cFull 3 AStatus.late none ""
      none).2.1 (by decide) rfl rfl,
   (c4_mark_preconditions dbC4 sAmy cFull 3 AStatus.present none ""
      none).2.2 (by decide) (Or.inl (by decide))⟩

theorem att_key_eq_iff (a : Attendance) (sid cid d : Nat) :
    a.key = (sid, cid, d) ↔
      a.student = sid ∧ a.course = cid ∧ a.date = d := by
  simp [Attendance.key, Prod.ext_iff]

/-- Updating the unique row holding a key and filtering by that key
yields exactly the updated row. -/
theorem filter_map_att_replace (l : List Attendance) (sid cid d : Nat)
    (hwf : AttOk l) (old : Attendance) (hold : old ∈ l)
    (hko : old.key = (sid, cid, d)) (a : Attendance)
    (hka : a.key = (sid, cid, d)) :
    (l.map (fun x => if x.student = sid ∧ x.course = cid ∧ x.date = d
      then a else x)).filter
      (fun x => decide (x.student = sid ∧ x.course = cid ∧ x.date = d)) =
      [a] := by
  induction l with
  | nil => cases hold
  | cons b t ih =>
    rcases List.pairwise_cons.mp hwf with ⟨hb, ht⟩
    by_cases hbk : b.key = (sid, cid, d)
    · have hbprop := (att_key_eq_iff b sid cid d).mp hbk
      have htail : ∀ y ∈ t,
          ¬(y.student = sid ∧ y.course = cid ∧ y.date = d) := by
        intro y hy hyk
        exact hb y hy (hbk.trans ((att_key_eq_iff y sid cid d).mpr hyk).symm)
      simp only [List.map_cons, if_pos hbprop]
      rw [List.filter_cons_of_pos (by
        simpa [decide_eq_true_eq] using (att_key_eq_iff a sid cid d).mp hka)]
      have hnil : (t.map (fun x => if x.student = sid ∧ x.course = cid ∧
          x.date = d then a else x)).filter
          (fun x => decide (x.student = sid ∧ x.course = cid ∧
            x.date = d)) = [] := by
        rw [List.filter_eq_nil_iff]
        intro x hx
        rcases List.mem_map.mp hx with ⟨y, hy, rfl⟩
        rw [if_neg (htail y hy)]
        simpa [decide_eq_true_eq] using htail y hy
      rw [hnil]
    · have hbprop : ¬(b.student = sid ∧ b.course = cid ∧ b.date = d) :=
        fun hcontra => hbk ((att_key_eq_iff b sid cid d).mpr hcontra)
      have holdt : old ∈ t := by
        rcases List.mem_cons.mp hold with h' | h'
        · exact absurd (h' ▸ hko) hbk
        · exact h'
      simp only [List.map_cons, if_neg hbprop]
      rw [List.filter_cons_of_neg (by
        simpa [decide_eq_true_eq] using hbprop)]
      exact ih ht holdt

/-- Appending a fresh row for an absent key and filtering by the key
yields exactly the new row. -/
theorem filter_att_append (l : List Attendance) (sid cid d : Nat)
    (hnone : ∀ x ∈ l, ¬(x.student = sid ∧ x.course = cid ∧ x.date = d))
    (a : Attendance)
    (hka : a.student = sid ∧ a.course = cid ∧ a.date = d) :
    (l ++ [a]).filter
      (fun x => decide (x.student = sid ∧ x.course = cid ∧ x.date = d)) =
      [a] := by
  rw [List.filter_append, List.filter_eq_nil_iff.mpr (by
    intro x hx
    simpa [decide_eq_true_eq] using hnone x hx)]
  simp [hka]

/-- Updating a row in place (new row carries the same key) preserves the
attendance uniqueness invariant. -/
theorem attOk_map_replace (l : List Attendance) (sid cid d : Nat)
    (a : Attendance) (hka : a.key = (sid, cid, d)) (hwf : AttOk l) :
    AttOk (l.map (fun x => if x.student = sid ∧ x.course = cid ∧
      x.date = d then a else x)) := by
  have hkey : ∀ x : Attendance,
      (if x.student = sid ∧ x.course = cid ∧ x.date = d then a
        else x).key = x.key := by
    intro x
    by_cases hx : x.student = sid ∧ x.course = cid ∧ x.date = d
    · rw [if_pos hx, hka, ← (att_key_eq_iff x sid cid d).mpr hx]
    · rw [if_neg hx]
  unfold AttOk at *
  rw [List.pairwise_map]
  exact hwf.imp (by intro x y hxy; rw [hkey x, hkey y]; exact hxy)

/-- Inserting a row whose key is absent preserves the attendance
uniqueness invariant. -/
theorem attOk_append (l : List Attendance) (a : Attendance)
    (hnone : ∀ x ∈ l, x.key ≠ a.key) (hwf : AttOk l) :
    AttOk (l ++ [a]) := by
  unfold AttOk at *
  rw [List.pairwise_append]
  refine ⟨hwf, List.pairwise_singleton _ _, ?_⟩
  intro x hx y hy
  have hya : y = a := by simpa using hy
  subst hya
  exact hnone x hx

/-- Post-state of every successful mark_attendance call: uniqueness is
preserved, filtering the attendance table by the (student, course, date)
key yields exactly the returned row, the returned row carries the call's
key and argument values, and the enrollment table is untouched. -/
theorem mark_ok_spec (db : DB) (s : Student) (c : Course) (d : Nat)
    (st : AStatus) (mb : Option Nat) (rem : String) (at_ : Option Nat)
    (db' : DB) (a : Attendance) (hwf : AttOk db.attendances)
    (h : mark_attendance db s c d st mb rem at_ = .ok (db', a)) :
    AttOk db'.attendances ∧
    db'.attendances.filter (fun x => decide (x.student = s.id ∧
      x.course = c.id ∧ x.date = d)) = [a] ∧
    a.student = s.id ∧ a.course = c.id ∧ a.date = d ∧
    a.status = st ∧ a.remarks = rem ∧ a.arrival_time = at_ ∧
    a.marked_by = mb ∧ db'.enrollments = db.enrollments := by
  by_cases hen : hasActiveEnrollment db s.id c.id = true
  · unfold mark_attendance at h
    rw [hen, if_neg (by simp)] at h
    rcases hf : db.attendances.find? (fun x => decide (x.student = s.id ∧
        x.course = c.id ∧ x.date = d)) with _ | old
    · rw [hf] at h
      dsimp only at h
      by_cases hlate : st = AStatus.late ∧ at_ = none
      · rw [show attendance_clean db
            { student := s.id, course := c.id, date := d, status := st,
              arrival_time := at_, remarks := rem, marked_by := mb } =
            some (Err.ValidationError
              "Arrival time is required for late status") by
          simp [attendance_clean, hen, hlate.1, hlate.2]] at h
        cases h
      · rw [show attendance_clean db
            { student := s.id, course := c.id, date := d, status := st,
              arrival_time := at_, remarks := rem, marked_by := mb } =
            none by simp [attendance_clean, hen, hlate]] at h
        obtain ⟨hdb, ha⟩ : _ ∧ _ := by
          injection h with h'
          injection h' with h1 h2
          exact ⟨h1.symm, h2.symm⟩
        have hnonekey : ∀ x ∈ db.attendances,
            ¬(x.student = s.id ∧ x.course = c.id ∧ x.date = d) := by
          intro x hx
          have := List.find?_eq_none.mp hf x hx
          simpa [decide_eq_true_eq] using this
        subst hdb ha
        refine ⟨?_, ?_, rfl, rfl, rfl, rfl, rfl, rfl, rfl, rfl⟩
        · exact attOk_append db.attendances _ (by
            intro x hx hxk
            exact hnonekey x hx ((att_key_eq_iff x s.id c.id d).mp
              (hxk.trans ((att_key_eq_iff _ s.id c.id d).mpr
                ⟨rfl, rfl, rfl⟩)))) hwf
        · exact filter_att_append db.attendances s.id c.id d hnonekey _
            ⟨rfl, rfl, rfl⟩
    · rw [hf] at h
      dsimp only at h
      obtain ⟨h1, h2, h3⟩ : old.student = s.id ∧ old.course = c.id ∧
          old.date = d := by simpa using List.find?_some hf
      by_cases hlate : st = AStatus.late ∧ at_ = none
      · rw [show attendance_clean db
            { old with
              status := st, marked_by := mb, remarks := rem,
              arrival_time := at_ } =
            some (Err.ValidationError
              "Arrival time is required for late status") by
          simp [attendance_clean, h1, h2, hen, hlate.1, hlate.2]] at h
        cases h
      · rw [show attendance_clean db
            { old with
              status := st, marked_by := mb, remarks := rem,
              arrival_time := at_ } = none by
          simp [attendance_clean, h1, h2, hen, hlate]] at h
        obtain ⟨hdb, ha⟩ : _ ∧ _ := by
          injection h with h'
          injection h' with hx hy
          exact ⟨hx.symm, hy.symm⟩
        have holdmem : old ∈ db.attendances := List.mem_of_find?_eq_some hf
        have hko : old.key = (s.id, c.id, d) :=
          (att_key_eq_iff old s.id c.id d).mpr ⟨h1, h2, h3⟩
        have hka : ({ old with
            status := st, marked_by := mb,
            remarks := rem, arrival_time := at_ } : Attendance).key =
            (s.id, c.id, d) := by
          simpa [Attendance.key] using hko
        subst hdb ha
        exact ⟨attOk_map_replace db.attendances s.id c.id d _ hka hwf,
          filter_map_att_replace db.attendances s.id c.id d hwf old
            holdmem hko _ hka,
          h1, h2, h3, rfl, rfl, rfl, rfl, rfl⟩
  · have hen' : hasActiveEnrollment db s.id c.id = false := by
      revert hen; cases hasActiveEnrollment db s.id c.id <;> simp
    unfold mark_attendance at h
    rw [hen'] at h
    simp at h

/-- Claim C7: Marking the same (student, course, date) twice in a row,
both calls succeeding, leaves exactly one Attendance row for that key,
and its status, remarks, arrival_time and marked_by are the second
call's arguments - the first call's values are not retained
(last-write-wins upsert, no correction history). -/
theorem c7_upsert_last_write_wins (db : DB) (s : Student) (c : Course)
    (d : Nat) (st1 : AStatus) (mb1 : Option Nat) (rem1 : String)
    (at1 : Option Nat) (st2 : AStatus) (mb2 : Option Nat) (rem2 : String)
    (at2 : Option Nat) (db1 : DB) (a1 : Attendance) (db2 : DB)
    (a2 : Attendance) (hwf : AttOk db.attendances)
    (h1 : mark_attendance db s c d st1 mb1 rem1 at1 = .ok (db1, a1))
    (h2 : mark_attendance db1 s c d st2 mb2 rem2 at2 = .ok (db2, a2)) :
    db2.attendances.filter (fun x => decide (x.student = s.id ∧
      x.course = c.id ∧ x.date = d)) = [a2] ∧
    a2.status = st2 ∧ a2.remarks = rem2 ∧ a2.arrival_time = at2 ∧
    a2.marked_by = mb2 := by
  obtain ⟨hwf1, _⟩ := mark_ok_spec db s c d st1 mb1 rem1 at1 db1 a1 hwf h1
  obtain ⟨_, hfil, _, _, _, hst, hrem, hat, hmb, _⟩ :=
    mark_ok_spec db1 s c d st2 mb2 rem2 at2 db2 a2 hwf1 h2
  exact ⟨hfil, hst, hrem, hat, hmb⟩

/-- Witness for C7: mark (7, 1, 3) present then absent; one row remains,
holding the second call's values. -/
theorem c7_witness :
    dbM2.attendances.filter (fun x => decide (x.student = sAmy.id ∧
      x.course = cFull.id ∧ x.date = 3)) = [aMark2] ∧
    aMark2.status = AStatus.absent ∧ aMark2.remarks = "sick" ∧
    aMark2.arrival_time = none ∧ aMark2.marked_by = none :=
  c7_upsert_last_write_wins dbC4 sAmy cFull 3 AStatus.present none ""
    none AStatus.absent none "sick" none dbM1 aMark1 dbM2 aMark2
    (by unfold AttOk; decide) rfl rfl

theorem countP_effective (l : List Attendance) :
    countStatus l AStatus.present + countStatus l AStatus.late +
      countStatus l AStatus.excused = effectivePresent l := by
  induction l with
  | nil => rfl
  | cons a t ih =>
    unfold countStatus effectivePresent at *
    cases ha : a.status <;> simp [List.countP_cons, ha] at ih ⊢ <;> omega

/-- Claim C6: Both attendance summaries (the service's per-student one and
the model classmethod) report percentage = round2 of
effective_present / total * 100, where effective_present counts rows
whose status is present, late or excused, and 0 when there are no rows;
the witness instance - 10 rows with 6 present, 2 late, 1 excused,
1 absent - reports 90. -/
theorem c6_summary_percentage :
    (∀ db sid co,
      (get_student_attendance_summary db sid co).percentage =
        round2 (if (attendanceRowsFor db sid co).length = 0 then 0
          else (effectivePresent (attendanceRowsFor db sid co) : ℚ) /
            ((attendanceRowsFor db sid co).length : ℚ) * 100)) ∧
    (∀ db student course sd ed,
      (get_summary db student course sd ed).percentage =
        round2 (if (summaryRows db student course sd ed).length = 0
          then 0
          else (effectivePresent (summaryRows db student course sd ed) :
            ℚ) / ((summaryRows db student course sd ed).length : ℚ) *
            100)) ∧
    (get_student_attendance_summary dbC6 7 (some 1)).percentage = 90 := by
  refine ⟨?_, ?_, ?_⟩
  · intro db sid co
    unfold get_student_attendance_summary service_summary_raw
    by_cases h0 : (attendanceRowsFor db sid co).length = 0
    · simp [h0]
    · have hpos : 0 < (attendanceRowsFor db sid co).length :=
        Nat.pos_of_ne_zero h0
      simp only [if_pos hpos, if_neg h0]
      rw [← countP_effective]
  · intro db student course sd ed
    unfold get_summary
    by_cases h0 : (summaryRows db student course sd ed).length = 0
    · simp [h0]
    · have hpos : 0 < (summaryRows db student course sd ed).length :=
        Nat.pos_of_ne_zero h0
      simp only [if_pos hpos, if_neg h0]
      rw [← countP_effective]
  · simp only [get_student_attendance_summary, service_summary_raw,
      attendanceRowsFor, countStatus, dbC6, arow]
    norm_num +decide [round2, Int.floor_eq_iff]

theorem countConsecLoop_eq_takeWhile (l : List Attendance) :
    countConsecLoop l =
      (l.takeWhile (fun r => decide (r.status = AStatus.absent))).length := by
  induction l with
  | nil => rfl
  | cons a t ih =>
    by_cases ha : a.status = AStatus.absent
    · simp [countConsecLoop, ha, ih]
    · simp [countConsecLoop, ha]

instance : IsTotal Attendance (fun a b => b.date ≤ a.date) :=
  ⟨fun a b => Nat.le_total b.date a.date⟩

instance : IsTrans Attendance (fun a b => b.date ≤ a.date) :=
  ⟨fun _ _ _ hab hbc => le_trans hbc hab⟩

/-- Claim C8: _calculate_consecutive_absences equals the length of the
maximal leading run of absent records in the date-descending ordering of
the student's (optionally course-filtered) rows truncated to the 30 most
recent; sortDesc really is a date-descending permutation of the rows;
and the example [absent, absent, absent, present, absent]
(most-recent-first) yields 3. -/
theorem c8_consecutive_absences :
    (∀ db sid co, _calculate_consecutive_absences db sid co =
      (((sortDesc (attendanceRowsFor db sid co)).take 30).takeWhile
        (fun r => decide (r.status = AStatus.absent))).length) ∧
    (∀ l : List Attendance,
      (sortDesc l).Pairwise (fun a b => b.date ≤ a.date) ∧
      List.Perm (sortDesc l) l) ∧
    _calculate_consecutive_absences dbC8 7 none = 3 := by
  refine ⟨?_, ?_, by decide⟩
  · intro db sid co
    unfold _calculate_consecutive_absences
    exact countConsecLoop_eq_takeWhile _
  · intro l
    exact ⟨List.sorted_insertionSort _ l, List.perm_insertionSort _ l⟩

/-- Claim C10: StudentProfile.get_attendance_summary computes its
percentage from rows whose status is strictly present (late and excused
count only in the denominator), so on any data with at least one late or
excused row it is strictly below the effective-present percentage of
AttendanceService.get_student_attendance_summary; the reported fields
are the rounded values of these quantities. -/
theorem c10_dashboard_strictly_lower (db : DB) (sid : Nat)
    (co : Option Nat)
    (h : 1 ≤ countStatus (attendanceRowsFor db sid co) AStatus.late +
      countStatus (attendanceRowsFor db sid co) AStatus.excused) :
    (profile_attendance_summary db sid co none none).percentage =
      round2 (profile_summary_raw db sid co none none) ∧
    (get_student_attendance_summary db sid co).percentage =
      round2 (service_summary_raw db sid co) ∧
    profile_summary_raw db sid co none none <
      service_summary_raw db sid co := by
  refine ⟨rfl, rfl, ?_⟩
  have hrows : profileRows db sid co none none =
      attendanceRowsFor db sid co := by
    cases co <;> rfl
  unfold profile_summary_raw service_summary_raw
  rw [hrows]
  have hl1 := List.countP_le_length
    (p := fun a => decide (a.status = AStatus.late))
    (l := attendanceRowsFor db sid co)
  have hl2 := List.countP_le_length
    (p := fun a => decide (a.status = AStatus.excused))
    (l := attendanceRowsFor db sid co)
  have hlen : 0 < (attendanceRowsFor db sid co).length := by
    unfold countStatus at h
    omega
  rw [if_pos hlen, if_pos hlen]
  have hnum : (countStatus (attendanceRowsFor db sid co)
      AStatus.present : ℚ) <
      ((countStatus (attendanceRowsFor db sid co) AStatus.present +
        countStatus (attendanceRowsFor db sid co) AStatus.late +
        countStatus (attendanceRowsFor db sid co) AStatus.excused :
        Nat) : ℚ) := by
    exact_mod_cast (by omega :
      countStatus (attendanceRowsFor db sid co) AStatus.present <
      countStatus (attendanceRowsFor db sid co) AStatus.present +
        countStatus (attendanceRowsFor db sid co) AStatus.late +
        countStatus (attendanceRowsFor db sid co) AStatus.excused)
  have hlenQ : (0:ℚ) < ((attendanceRowsFor db sid co).length : ℚ) := by
    exact_mod_cast hlen
  gcongr

/-- Witness for C10: on dbC6 (6 present, 2 late, 1 excused, 1 absent)
the dashboard raw percentage is strictly below the engine's. -/
theorem c10_witness :
    (profile_attendance_summary dbC6 7 (some 1) none none).percentage =
      round2 (profile_summary_raw dbC6 7 (some 1) none none) ∧
    (get_student_attendance_summary dbC6 7 (some 1)).percentage =
      round2 (service_summary_raw dbC6 7 (some 1)) ∧
    profile_summary_raw dbC6 7 (some 1) none none <
      service_summary_raw dbC6 7 (some 1) :=
  c10_dashboard_strictly_lower dbC6 7 (some 1) (by decide)

/-- Claim C5 (code bug): On dbDup - one assignment, two Submission rows by
the same student for it, no attendance - Course.get_student_progress
returns 120: it counts Submission rows, not distinct submitted
assignments, so assignment_progress is 200 and the result escapes the
0-100 range its own docstring promises.  The claim's distinct-assignment
formula gives 60 on the same data. -/
theorem c5_progress_duplicate_submissions :
    get_student_progress dbDup cFull sAmy = 120 ∧
    claim_student_progress dbDup cFull sAmy = 60 ∧
    ¬ get_student_progress dbDup cFull sAmy ≤ 100 := by
  have h1 : get_student_progress dbDup cFull sAmy = 120 := by
    simp only [get_student_progress, dbDup, cFull, sAmy]
    norm_num +decide [countStatus, round2, Int.floor_eq_iff]
  have h2 : claim_student_progress dbDup cFull sAmy = 60 := by
    simp only [claim_student_progress, dbDup, cFull, sAmy]
    norm_num +decide [countStatus, round2, Int.floor_eq_iff]
  exact ⟨h1, h2, by rw [h1]; norm_num⟩

end SMS
